import Mathlib

/-!
Shallow embedding of the emission and route-optimization engine of
`src/app.py` (Green-Logistics).  Python floats are modelled exactly as
rationals (`ℚ`), so decimal constants such as `0.096` are exact;
Python's `round(x, 2)` is modelled by `round2` (rounding to the nearest
multiple of `1/100`; Python's half-to-even tie behaviour differs from
Mathlib's `round` only on exact half-ties, which no statement below
exercises).  The trigonometric part of the haversine distance lives in
`ℝ`.
-/

namespace GreenLogistics

/-- Python `round(x, 2)` on exact rationals. -/
def round2 (x : ℚ) : ℚ := ((round (x * 100) : ℤ) : ℚ) / 100

/-- `EMISSION_FACTORS` from `src/app.py` (kg CO₂ per km per ton). -/
def EMISSION_FACTORS : List (String × ℚ) :=
  [("Truck", 0.096), ("Train", 0.028), ("Ship", 0.016), ("Plane", 0.602)]

/-- `EMISSION_FACTORS.get(transport_mode, 0.096)`: dictionary lookup with
the Truck factor as default.  (`optimize_route` accesses the dictionary
without a default, but only with keys that are present, where the two
accesses agree.) -/
def emission_factor_of (transport_mode : String) : ℚ :=
  (EMISSION_FACTORS.lookup transport_mode).getD 0.096

/-- `LOCATIONS` from `src/app.py`: country → city → (latitude, longitude). -/
def LOCATIONS : List (String × List (String × (ℚ × ℚ))) :=
  [("United Kingdom", [("London", (51.5074, -0.1278))]),
   ("France", [("Paris", (48.8566, 2.3522))]),
   ("USA", [("New York", (40.7128, -74.0060))]),
   ("China", [("Shanghai", (31.2304, 121.4737))]),
   ("Japan", [("Tokyo", (35.6762, 139.6503))]),
   ("Australia", [("Sydney", (-33.8688, 151.2093))])]

/-- `get_coordinates` from `src/app.py`:
`LOCATIONS.get(country, {}).get(city, (0, 0))`. -/
def get_coordinates (country city : String) : ℚ × ℚ :=
  (((LOCATIONS.lookup country).getD []).lookup city).getD (0, 0)

/-- Whether a (country, city) pair is present in the `LOCATIONS` table. -/
def resolved (country city : String) : Bool :=
  (((LOCATIONS.lookup country).getD []).lookup city).isSome

/-- `CARBON_PRICE_EUR_PER_TON` from `src/app.py`. -/
def CARBON_PRICE_EUR_PER_TON : ℚ := 65.89

/-- `EXCHANGE_RATES` from `src/app.py`. -/
def EXCHANGE_RATES : List (String × ℚ) :=
  [("EUR", 1.0), ("USD", 1.06), ("AUD", 1.62), ("SAR", 3.98)]

/-- `calculate_co2` from `src/app.py`: the four location arguments are
accepted but unused, exactly as in the source. -/
def calculate_co2 (country1 city1 country2 city2 : String)
    (transport_mode : String) (distance_km weight_tons : ℚ) : ℚ :=
  round2 (distance_km * weight_tons * emission_factor_of transport_mode)

/-- One mode-split candidate of `optimize_route`: the Python tuple
`(mode1, ratio1, mode2, ratio2)`, where `mode2` may be `None`. -/
structure Candidate where
  mode1 : String
  ratio1 : ℚ
  mode2 : Option String
  ratio2 : ℚ
  deriving DecidableEq, Repr

/-- The `combinations` list built by `optimize_route`
(`intercontinental = country1 != country2`; the distance-band tests are
`distance_long = distance_km >= 5000`,
`distance_medium = 1000 <= distance_km < 5000`,
`distance_short = distance_km < 1000`). -/
def combinations (intercontinental : Bool) (distance_km : ℚ) : List Candidate :=
  if intercontinental then
    if 5000 ≤ distance_km then
      [⟨"Ship", 0.9, some "Train", 0.1⟩,
       ⟨"Ship", 0.8, some "Truck", 0.2⟩,
       ⟨"Plane", 0.5, some "Ship", 0.5⟩]
    else if 1000 ≤ distance_km ∧ distance_km < 5000 then
      [⟨"Ship", 0.7, some "Train", 0.3⟩,
       ⟨"Plane", 0.4, some "Truck", 0.6⟩,
       ⟨"Ship", 0.6, some "Plane", 0.4⟩]
    else
      [⟨"Train", 0.8, some "Truck", 0.2⟩,
       ⟨"Ship", 0.5, some "Truck", 0.5⟩,
       ⟨"Plane", 0.3, some "Truck", 0.7⟩]
  else
    if distance_km < 1000 then
      [⟨"Train", 0.9, some "Truck", 0.1⟩,
       ⟨"Truck", 1.0, none, 0.0⟩,
       ⟨"Train", 1.0, none, 0.0⟩]
    else
      [⟨"Train", 0.7, some "Truck", 0.3⟩,
       ⟨"Truck", 0.6, some "Train", 0.4⟩,
       ⟨"Plane", 0.3, some "Truck", 0.7⟩]

/-- The pair `(dist1, dist2)` computed in the loop body of `optimize_route`:
`dist1 = distance_km * ratio1`, `dist2 = distance_km * ratio2 if mode2 else 0`. -/
def segment_distances (distance_km : ℚ) (c : Candidate) : ℚ × ℚ :=
  (distance_km * c.ratio1,
   match c.mode2 with
   | some _ => distance_km * c.ratio2
   | none => 0)

/-- The pair `(co2_1, co2_2)` computed in the loop body of `optimize_route`. -/
def segment_co2 (distance_km weight_tons : ℚ) (c : Candidate) : ℚ × ℚ :=
  ((segment_distances distance_km c).1 * weight_tons * emission_factor_of c.mode1,
   match c.mode2 with
   | some m2 => (segment_distances distance_km c).2 * weight_tons * emission_factor_of m2
   | none => 0)

/-- `total_co2 = co2_1 + co2_2` for a candidate. -/
def candTotal (distance_km weight_tons : ℚ) (c : Candidate) : ℚ :=
  (segment_co2 distance_km weight_tons c).1 + (segment_co2 distance_km weight_tons c).2

/-- The loop state of `optimize_route` once at least one candidate has been
seen: `(best_option, min_co2, best_breakdown, best_distances)`.
`min_co2` is kept unrounded during the loop, as in the source. -/
structure RouteChoice where
  best_option : Candidate
  min_co2 : ℚ
  best_breakdown : ℚ × ℚ
  best_distances : ℚ × ℚ
  deriving DecidableEq, Repr

/-- The loop state recorded when a candidate `c` wins a comparison. -/
def mkChoice (distance_km weight_tons : ℚ) (c : Candidate) : RouteChoice :=
  ⟨c, candTotal distance_km weight_tons c,
   segment_co2 distance_km weight_tons c,
   segment_distances distance_km c⟩

/-- One iteration of the selection loop of `optimize_route`.  The Python
loop starts from `best_option = None, min_co2 = float('inf')`; the
pre-first-candidate state is modelled by `none`, and the comparison
`total_co2 < float('inf')` is always true for the (finite) totals, so the
first candidate always replaces `none`. -/
def step (distance_km weight_tons : ℚ) (acc : Option RouteChoice) (c : Candidate) :
    Option RouteChoice :=
  match acc with
  | none => some (mkChoice distance_km weight_tons c)
  | some b =>
      if candTotal distance_km weight_tons c < b.min_co2 then
        some (mkChoice distance_km weight_tons c)
      else some b

/-- `optimize_route` from `src/app.py`.  The source returns the tuple
`(best_option, round(min_co2, 2), best_breakdown, best_distances)`; when no
candidate was examined (impossible: every `combinations` list is non-empty)
the tuple would be `(None, inf, None, None)`, modelled by `none`. -/
def optimize_route (country1 city1 country2 city2 : String)
    (distance_km weight_tons : ℚ) : Option RouteChoice :=
  let intercontinental := country1 != country2
  match (combinations intercontinental distance_km).foldl
      (step distance_km weight_tons) none with
  | some b => some { b with min_co2 := round2 b.min_co2 }
  | none => none

/-- Carbon-pricing conversion from `main` (`src/app.py` lines 598-600):
`carbon_price_per_kg = (CARBON_PRICE_EUR_PER_TON / 1000) * EXCHANGE_RATES[currency]`
and `total_cost_savings = total_savings * carbon_price_per_kg`.  The bare
dictionary access `EXCHANGE_RATES[currency]` raises `KeyError` on a missing
key (there is no default); the failed lookup is modelled by `none`. -/
def monetize_savings (total_savings : ℚ) (currency : String) : Option ℚ :=
  (EXCHANGE_RATES.lookup currency).map
    (fun rate => total_savings * (CARBON_PRICE_EUR_PER_TON / 1000 * rate))

/-- Distance band as described by the spec: short `< 1000` km,
medium `1000`–`4999` km, long `≥ 5000` km. -/
inductive Band where
  | short
  | medium
  | long
  deriving DecidableEq, Repr

/-- Band classification following the spec wording. -/
def bandOf (distance_km : ℚ) : Band :=
  if distance_km < 1000 then Band.short
  else if distance_km < 5000 then Band.medium
  else Band.long

/-- Spec-side description (§4.4 of the spec) of the hand-curated candidate
table keyed by scope and distance band; for the domestic scope the medium
and long bands share one list.  Compared against `combinations` in the
claim about the optimizer. -/
def candidateTable (intercontinental : Bool) (b : Band) : List Candidate :=
  match intercontinental, b with
  | true, Band.long =>
      [⟨"Ship", 0.9, some "Train", 0.1⟩,
       ⟨"Ship", 0.8, some "Truck", 0.2⟩,
       ⟨"Plane", 0.5, some "Ship", 0.5⟩]
  | true, Band.medium =>
      [⟨"Ship", 0.7, some "Train", 0.3⟩,
       ⟨"Plane", 0.4, some "Truck", 0.6⟩,
       ⟨"Ship", 0.6, some "Plane", 0.4⟩]
  | true, Band.short =>
      [⟨"Train", 0.8, some "Truck", 0.2⟩,
       ⟨"Ship", 0.5, some "Truck", 0.5⟩,
       ⟨"Plane", 0.3, some "Truck", 0.7⟩]
  | false, Band.short =>
      [⟨"Train", 0.9, some "Truck", 0.1⟩,
       ⟨"Truck", 1.0, none, 0.0⟩,
       ⟨"Train", 1.0, none, 0.0⟩]
  | false, _ =>
      [⟨"Train", 0.7, some "Truck", 0.3⟩,
       ⟨"Truck", 0.6, some "Train", 0.4⟩,
       ⟨"Plane", 0.3, some "Truck", 0.7⟩]

/-- First-encountered minimiser of `candTotal` for a non-empty candidate
list `a :: l`: the quantity the selection loop of `optimize_route` tracks. -/
def selectFirstMin (distance_km weight_tons : ℚ) (a : Candidate) :
    List Candidate → Candidate
  | [] => a
  | x :: xs =>
      if candTotal distance_km weight_tons x < candTotal distance_km weight_tons a then
        selectFirstMin distance_km weight_tons x xs
      else
        selectFirstMin distance_km weight_tons a xs

/-- `math.radians`: degrees to radians. -/
noncomputable def radians (x : ℝ) : ℝ := x * Real.pi / 180

/-- `math.atan2(y, x)` with the usual C/IEEE quadrant conventions
(`atan2(0, 0) = 0`).  The haversine code only ever calls it with
non-negative arguments, where it agrees with `arctan (y / x)` for
`x > 0` and with `π / 2` for `x = 0`. -/
noncomputable def atan2 (y x : ℝ) : ℝ :=
  if 0 < x then Real.arctan (y / x)
  else if x < 0 then
    (if 0 ≤ y then Real.arctan (y / x) + Real.pi else Real.arctan (y / x) - Real.pi)
  else
    (if 0 < y then Real.pi / 2 else if y < 0 then -(Real.pi / 2) else 0)

/-- The intermediate value `a` of the haversine formula in
`calculate_distance` (`src/app.py` line 106):
`a = sin(dlat/2)**2 + cos(radians(lat1)) * cos(radians(lat2)) * sin(dlon/2)**2`. -/
noncomputable def hav_a (lat1 lon1 lat2 lon2 : ℚ) : ℝ :=
  Real.sin (radians ((lat2 : ℝ) - (lat1 : ℝ)) / 2) ^ 2 +
    Real.cos (radians (lat1 : ℝ)) * Real.cos (radians (lat2 : ℝ)) *
      Real.sin (radians ((lon2 : ℝ) - (lon1 : ℝ)) / 2) ^ 2

/-- The haversine great-circle distance computed in `calculate_distance`
(`src/app.py` lines 103-108): `c = 2 * atan2(sqrt(a), sqrt(1-a))` and
`R * c` with `R = 6371` km, before rounding. -/
noncomputable def haversine_distance (lat1 lon1 lat2 lon2 : ℚ) : ℝ :=
  6371 * (2 * atan2 (Real.sqrt (hav_a lat1 lon1 lat2 lon2))
    (Real.sqrt (1 - hav_a lat1 lon1 lat2 lon2)))

/-- Python `round(x, 2)` on the real-valued haversine result. -/
noncomputable def round2R (x : ℝ) : ℝ := ((round (x * 100) : ℤ) : ℝ) / 100

/-- `calculate_distance` from `src/app.py`: sentinel check
`lat1 == 0 and lon1 == 0 or lat2 == 0 and lon2 == 0` (which Python
parses as the disjunction of the two conjunctions), then the haversine
formula rounded to 2 decimals. -/
noncomputable def calculate_distance (country1 city1 country2 city2 : String) : ℝ :=
  let p1 := get_coordinates country1 city1
  let p2 := get_coordinates country2 city2
  if (p1.1 = 0 ∧ p1.2 = 0) ∨ (p2.1 = 0 ∧ p2.2 = 0) then 500
  else round2R (haversine_distance p1.1 p1.2 p2.1 p2.2)

/-! ### Helper lemmas -/

theorem ef_truck : emission_factor_of "Truck" = 0.096 := by
  simp [emission_factor_of, EMISSION_FACTORS, List.lookup]

theorem ef_train : emission_factor_of "Train" = 0.028 := by
  simp [emission_factor_of, EMISSION_FACTORS, List.lookup]

theorem ef_ship : emission_factor_of "Ship" = 0.016 := by
  simp [emission_factor_of, EMISSION_FACTORS, List.lookup]

theorem ef_plane : emission_factor_of "Plane" = 0.602 := by
  simp [emission_factor_of, EMISSION_FACTORS, List.lookup]

/-- Every emission factor, including the Truck default, is positive. -/
theorem emission_factor_of_pos (m : String) : 0 < emission_factor_of m := by
  unfold emission_factor_of EMISSION_FACTORS
  simp only [List.lookup]
  repeat' split
  all_goals simp [Option.getD]
  all_goals norm_num

theorem round2_zero : round2 0 = 0 := by simp [round2]

theorem round2_mono {x y : ℚ} (h : x ≤ y) : round2 x ≤ round2 y := by
  unfold round2
  have hr : round (x * 100) ≤ round (y * 100) := by
    rw [round_eq, round_eq]
    exact Int.floor_le_floor (by linarith)
  have : ((round (x * 100) : ℤ) : ℚ) ≤ ((round (y * 100) : ℤ) : ℚ) := by exact_mod_cast hr
  linarith

theorem round2_nonpos {x : ℚ} (h : x ≤ 0) : round2 x ≤ 0 := by
  have := round2_mono h
  rwa [round2_zero] at this

theorem abs_sub_round2 (x : ℚ) : |x - round2 x| ≤ 1 / 200 := by
  unfold round2
  have h : |x * 100 - (round (x * 100) : ℚ)| ≤ 1 / 2 := abs_sub_round (x * 100)
  have heq : x - ((round (x * 100) : ℤ) : ℚ) / 100 =
      (x * 100 - ((round (x * 100) : ℤ) : ℚ)) / 100 := by ring
  rw [heq, abs_div]
  have habs : |(100 : ℚ)| = 100 := by norm_num
  rw [habs]
  linarith

theorem mkChoice_min (d w : ℚ) (c : Candidate) :
    (mkChoice d w c).min_co2 = candTotal d w c := rfl

theorem mkChoice_option (d w : ℚ) (c : Candidate) :
    (mkChoice d w c).best_option = c := rfl

theorem foldl_step_some (d w : ℚ) (l : List Candidate) (a : Candidate) :
    l.foldl (step d w) (some (mkChoice d w a)) =
      some (mkChoice d w (selectFirstMin d w a l)) := by
  induction l generalizing a with
  | nil => rfl
  | cons x xs ih =>
      show xs.foldl (step d w) (step d w (some (mkChoice d w a)) x) = _
      by_cases h : candTotal d w x < candTotal d w a
      · rw [show step d w (some (mkChoice d w a)) x = some (mkChoice d w x) by
          simp [step, mkChoice_min, h]]
        rw [ih x, selectFirstMin, if_pos h]
      · rw [show step d w (some (mkChoice d w a)) x = some (mkChoice d w a) by
          simp [step, mkChoice_min, h]]
        rw [ih a, selectFirstMin, if_neg h]

theorem foldl_step_cons (d w : ℚ) (x : Candidate) (xs : List Candidate) :
    (x :: xs).foldl (step d w) none = some (mkChoice d w (selectFirstMin d w x xs)) := by
  show xs.foldl (step d w) (step d w none x) = _
  rw [show step d w none x = some (mkChoice d w x) from rfl]
  exact foldl_step_some d w xs x

/-- `selectFirstMin` is the first-encountered minimiser: the list splits
around it, it is a global minimum, and every element strictly before it
has a strictly larger total. -/
theorem selectFirstMin_spec (d w : ℚ) (l : List Candidate) (a : Candidate) :
    ∃ l1 l2, a :: l = l1 ++ selectFirstMin d w a l :: l2 ∧
      (∀ c ∈ a :: l, candTotal d w (selectFirstMin d w a l) ≤ candTotal d w c) ∧
      (∀ c ∈ l1, candTotal d w (selectFirstMin d w a l) < candTotal d w c) := by
  induction l generalizing a with
  | nil =>
      refine ⟨[], [], by simp [selectFirstMin], ?_, by simp⟩
      intro c hc
      simp only [List.mem_singleton] at hc
      simp [hc, selectFirstMin]
  | cons x xs ih =>
      by_cases h : candTotal d w x < candTotal d w a
      · obtain ⟨l1, l2, heq, hmin, hlt⟩ := ih x
        have hsel : selectFirstMin d w a (x :: xs) = selectFirstMin d w x xs := by
          rw [selectFirstMin, if_pos h]
        have hrx : candTotal d w (selectFirstMin d w x xs) ≤ candTotal d w x :=
          hmin x (List.mem_cons_self x xs)
        refine ⟨a :: l1, l2, ?_, ?_, ?_⟩
        · rw [hsel]
          simpa using congrArg (List.cons a) heq
        · intro c hc
          rw [hsel]
          rcases List.mem_cons.mp hc with rfl | hc'
          · exact le_of_lt (lt_of_le_of_lt hrx h)
          · exact hmin c hc'
        · intro c hc
          rw [hsel]
          rcases List.mem_cons.mp hc with rfl | hc'
          · exact lt_of_le_of_lt hrx h
          · exact hlt c hc'
      · obtain ⟨l1, l2, heq, hmin, hlt⟩ := ih a
        have hsel : selectFirstMin d w a (x :: xs) = selectFirstMin d w a xs := by
          rw [selectFirstMin, if_neg h]
        have hra : candTotal d w (selectFirstMin d w a xs) ≤ candTotal d w a :=
          hmin a (List.mem_cons_self a xs)
        have hax : candTotal d w a ≤ candTotal d w x := le_of_not_lt h
        cases l1 with
        | nil =>
            simp only [List.nil_append] at heq
            have hr : selectFirstMin d w a xs = a := by
              injection heq with h1 h2
              exact h1.symm
            refine ⟨[], x :: xs, ?_, ?_, by simp⟩
            · simp [hsel, hr]
            · intro c hc
              rw [hsel, hr]
              rcases List.mem_cons.mp hc with rfl | hc'
              · exact le_refl _
              · rcases List.mem_cons.mp hc' with rfl | hc''
                · exact hax
                · have := hmin c (List.mem_cons_of_mem a hc'')
                  rw [hr] at this
                  exact this
        | cons b l1' =>
            rw [List.cons_append] at heq
            obtain ⟨hb, hxs⟩ := List.cons_eq_cons.mp heq
            have hrb : candTotal d w (selectFirstMin d w a xs) < candTotal d w a := by
              have := hlt b (List.mem_cons_self b l1')
              rwa [← hb] at this
            refine ⟨a :: x :: l1', l2, ?_, ?_, ?_⟩
            · rw [hsel]
              simp only [List.cons_append]
              rw [← hxs]
            · intro c hc
              rw [hsel]
              rcases List.mem_cons.mp hc with rfl | hc'
              · exact le_of_lt hrb
              · rcases List.mem_cons.mp hc' with rfl | hc''
                · exact le_of_lt (lt_of_lt_of_le hrb hax)
                · exact hmin c (List.mem_cons_of_mem a hc'')
            · intro c hc
              rw [hsel]
              rcases List.mem_cons.mp hc with rfl | hc'
              · exact hrb
              · rcases List.mem_cons.mp hc' with rfl | hc''
                · exact lt_of_lt_of_le hrb hax
                · exact hlt c (List.mem_cons_of_mem b hc'')

theorem selectFirstMin_mem (d w : ℚ) (l : List Candidate) (a : Candidate) :
    selectFirstMin d w a l ∈ a :: l := by
  obtain ⟨l1, l2, heq, -, -⟩ := selectFirstMin_spec d w l a
  rw [heq]
  exact List.mem_append_right l1 (List.mem_cons_self _ _)

theorem selectFirstMin_le (d w : ℚ) (l : List Candidate) (a : Candidate) :
    ∀ c ∈ a :: l, candTotal d w (selectFirstMin d w a l) ≤ candTotal d w c := by
  obtain ⟨-, -, -, hmin, -⟩ := selectFirstMin_spec d w l a
  exact hmin

/-- Every `combinations` list is a concrete three-element list. -/
theorem combinations_cases (b : Bool) (d : ℚ) :
    ∃ x y z : Candidate, combinations b d = [x, y, z] := by
  unfold combinations
  split_ifs <;> exact ⟨_, _, _, rfl⟩

/-- `optimize_route` computes the first-encountered minimiser of the
candidate list, with the recorded breakdown and distances, and rounds the
minimal total. -/
theorem optimize_route_some (c1 t1 c2 t2 : String) (d w : ℚ) (x : Candidate)
    (xs : List Candidate) (h : combinations (c1 != c2) d = x :: xs) :
    optimize_route c1 t1 c2 t2 d w =
      some ⟨selectFirstMin d w x xs, round2 (candTotal d w (selectFirstMin d w x xs)),
            segment_co2 d w (selectFirstMin d w x xs),
            segment_distances d (selectFirstMin d w x xs)⟩ := by
  simp only [optimize_route]
  rw [h, foldl_step_cons]
  rfl

/-- The distance-share ratios of every candidate sum to `1` (for a
single-mode candidate the second share is `0`). -/
theorem combinations_ratio_sum (b : Bool) (d : ℚ) :
    ∀ c ∈ combinations b d,
      c.ratio1 + (match c.mode2 with | some _ => c.ratio2 | none => 0) = 1 := by
  unfold combinations
  split_ifs <;> intro c hc <;>
    (simp only [List.mem_cons, List.not_mem_nil, or_false] at hc) <;>
    (rcases hc with rfl | rfl | rfl <;> norm_num)

/-- The code's branch structure (`if intercontinental: if long / elif
medium / else` and `if distance_short / else` for domestic) selects
exactly the spec's scope-and-band candidate table. -/
theorem combinations_eq_table (b : Bool) (d : ℚ) :
    combinations b d = candidateTable b (bandOf d) := by
  by_cases hs : d < 1000
  · have hb : bandOf d = Band.short := by unfold bandOf; rw [if_pos hs]
    have h5 : ¬ 5000 ≤ d := by linarith
    have hm : ¬ (1000 ≤ d ∧ d < 5000) := by rintro ⟨h, -⟩; linarith
    rw [hb]
    cases b <;> simp [combinations, candidateTable, hs, h5, hm]
  · by_cases hm : d < 5000
    · have hb : bandOf d = Band.medium := by unfold bandOf; rw [if_neg hs, if_pos hm]
      have h5 : ¬ 5000 ≤ d := by linarith
      have hmed : 1000 ≤ d ∧ d < 5000 := ⟨le_of_not_lt hs, hm⟩
      rw [hb]
      cases b <;> simp [combinations, candidateTable, hs, h5, hmed]
    · have hb : bandOf d = Band.long := by unfold bandOf; rw [if_neg hs, if_neg hm]
      have h5 : 5000 ≤ d := le_of_not_lt hm
      rw [hb]
      cases b <;> simp [combinations, candidateTable, hs, h5]

/-- With non-negative distance and non-positive weight, every candidate
total is non-positive. -/
theorem candTotal_nonpos (b : Bool) (d w : ℚ) (hd : 0 ≤ d) (hw : w ≤ 0) :
    ∀ c ∈ combinations b d, candTotal d w c ≤ 0 := by
  have hdw : d * w ≤ 0 := by nlinarith [mul_nonneg hd (neg_nonneg.mpr hw)]
  unfold combinations
  split_ifs <;> intro c hc <;>
    simp only [List.mem_cons, List.not_mem_nil, or_false] at hc <;>
    rcases hc with rfl | rfl | rfl <;>
    (simp only [candTotal, segment_co2, segment_distances, ef_truck, ef_train,
      ef_ship, ef_plane]
     nlinarith [hdw])

theorem lookup_mem {β : Type} (a : String) (b : β) :
    ∀ (l : List (String × β)), List.lookup a l = some b → (a, b) ∈ l := by
  intro l
  induction l with
  | nil => simp [List.lookup]
  | cons p l ih =>
      obtain ⟨k, v⟩ := p
      intro h
      rw [List.lookup] at h
      by_cases hk : a == k
      · rw [hk] at h
        simp only [Option.some.injEq] at h
        subst h
        exact (eq_of_beq hk) ▸ List.mem_cons_self _ _
      · rw [Bool.not_eq_true] at hk
        rw [hk] at h
        exact List.mem_cons_of_mem _ (ih h)

/-- A (country, city) pair present in the `LOCATIONS` table never yields
the sentinel coordinate `(0, 0)`. -/
theorem resolved_coordinates (country city : String)
    (h : resolved country city = true) : get_coordinates country city ≠ (0, 0) := by
  unfold resolved at h
  rw [Option.isSome_iff_exists] at h
  obtain ⟨p, hp⟩ := h
  unfold get_coordinates
  rw [hp, Option.getD_some]
  cases hco : List.lookup country LOCATIONS with
  | none => rw [hco] at hp; simp at hp
  | some cities =>
      rw [hco, Option.getD_some] at hp
      have hmem := lookup_mem city p cities hp
      have hmem2 := lookup_mem country cities LOCATIONS hco
      simp only [LOCATIONS, List.mem_cons, List.not_mem_nil, or_false,
        Prod.mk.injEq] at hmem2
      rcases hmem2 with ⟨-, rfl⟩ | ⟨-, rfl⟩ | ⟨-, rfl⟩ | ⟨-, rfl⟩ | ⟨-, rfl⟩ | ⟨-, rfl⟩ <;>
        (simp only [List.mem_cons, List.not_mem_nil, or_false, Prod.mk.injEq] at hmem
         obtain ⟨-, rfl⟩ := hmem
         simp only [ne_eq, Prod.mk.injEq, not_and]
         intro h0
         norm_num at h0)

/-- A (country, city) pair absent from the `LOCATIONS` table yields the
sentinel coordinate `(0, 0)`. -/
theorem unresolved_coordinates (country city : String)
    (h : resolved country city = false) : get_coordinates country city = (0, 0) := by
  unfold resolved at h
  unfold get_coordinates
  cases hx : List.lookup city ((List.lookup country LOCATIONS).getD []) with
  | none => rfl
  | some p => simp [hx] at h

theorem hav_a_symm (lat1 lon1 lat2 lon2 : ℚ) :
    hav_a lat1 lon1 lat2 lon2 = hav_a lat2 lon2 lat1 lon1 := by
  unfold hav_a
  have key : ∀ x y : ℝ, Real.sin (radians (x - y) / 2) ^ 2 =
      Real.sin (radians (y - x) / 2) ^ 2 := by
    intro x y
    have h : radians (x - y) / 2 = -(radians (y - x) / 2) := by unfold radians; ring
    rw [h, Real.sin_neg]
    ring
  rw [key ((lat2 : ℝ)) ((lat1 : ℝ)), key ((lon2 : ℝ)) ((lon1 : ℝ))]
  ring

theorem haversine_distance_symm (lat1 lon1 lat2 lon2 : ℚ) :
    haversine_distance lat1 lon1 lat2 lon2 = haversine_distance lat2 lon2 lat1 lon1 := by
  unfold haversine_distance
  rw [hav_a_symm]

/-- Concrete candidate list for a domestic 500 km route. -/
theorem combinations_France_500 :
    combinations ("France" != "France") 500 =
      [⟨"Train", 0.9, some "Truck", 0.1⟩, ⟨"Truck", 1.0, none, 0.0⟩,
       ⟨"Train", 1.0, none, 0.0⟩] := by
  have hb : ("France" != "France") = false := by decide
  rw [hb]
  unfold combinations
  rw [if_neg (by simp), if_pos (by norm_num)]

/-- Concrete candidate list for an intercontinental 10000 km route. -/
theorem combinations_USA_China_10000 :
    combinations ("USA" != "China") 10000 =
      [⟨"Ship", 0.9, some "Train", 0.1⟩, ⟨"Ship", 0.8, some "Truck", 0.2⟩,
       ⟨"Plane", 0.5, some "Ship", 0.5⟩] := by
  have hb : ("USA" != "China") = true := by decide
  rw [hb]
  unfold combinations
  rw [if_pos rfl, if_pos (by norm_num)]

/-! ### Claim theorems -/

/-- Claim C1: for every origin/destination country pair, distance and
positive weight, `optimize_route` evaluates exactly the hand-curated
candidate list selected by scope (intercontinental iff the origin country
differs from the destination country) and distance band (short `< 1000`,
medium `1000`–`4999`, long `≥ 5000`), and returns the candidate with the
strictly lowest total CO₂, keeping the first-encountered candidate in the
fixed enumeration order on an exact tie (every strictly earlier candidate
has a strictly larger total). -/
theorem optimize_route_band_first_min (country1 city1 country2 city2 : String)
    (d w : ℚ) (hw : 0 < w) :
    combinations (country1 != country2) d =
      candidateTable (country1 != country2) (bandOf d) ∧
    ∃ r, optimize_route country1 city1 country2 city2 d w = some r ∧
      r.min_co2 = round2 (candTotal d w r.best_option) ∧
      ∃ l1 l2, combinations (country1 != country2) d = l1 ++ r.best_option :: l2 ∧
        (∀ c ∈ combinations (country1 != country2) d,
          candTotal d w r.best_option ≤ candTotal d w c) ∧
        (∀ c ∈ l1, candTotal d w r.best_option < candTotal d w c) := by
  refine ⟨combinations_eq_table _ d, ?_⟩
  obtain ⟨x, y, z, hxyz⟩ := combinations_cases (country1 != country2) d
  refine ⟨_, optimize_route_some country1 city1 country2 city2 d w x [y, z] hxyz,
    rfl, ?_⟩
  obtain ⟨l1, l2, heq, hmin, hlt⟩ := selectFirstMin_spec d w [y, z] x
  rw [hxyz]
  exact ⟨l1, l2, heq, hmin, hlt⟩

/-- Witness for C1 at a concrete intercontinental long-band input. -/
theorem optimize_route_band_first_min_witness :
    (0 : ℚ) < 10 ∧
    (combinations ("USA" != "China") 12000 =
        candidateTable ("USA" != "China") (bandOf 12000) ∧
      ∃ r, optimize_route "USA" "New York" "China" "Shanghai" 12000 10 = some r ∧
        r.min_co2 = round2 (candTotal 12000 10 r.best_option) ∧
        ∃ l1 l2, combinations ("USA" != "China") 12000 = l1 ++ r.best_option :: l2 ∧
          (∀ c ∈ combinations ("USA" != "China") 12000,
            candTotal 12000 10 r.best_option ≤ candTotal 12000 10 c) ∧
          (∀ c ∈ l1, candTotal 12000 10 r.best_option < candTotal 12000 10 c)) :=
  ⟨by norm_num,
   optimize_route_band_first_min "USA" "New York" "China" "Shanghai" 12000 10
     (by norm_num)⟩

/-- Claim C2 (counterexample): on the intercontinental long band the
optimizer's best total (172 kg, Ship 90% / Train 10% at 10000 km and 1 t)
strictly exceeds the single-mode Ship baseline (160 kg), although Ship is
a mode appearing in the candidate set, so the claimed non-regression
against every candidate mode fails. -/
theorem optimizer_exceeds_ship_baseline_cex :
    optimize_route "USA" "New York" "China" "Shanghai" 10000 1 =
      some ⟨⟨"Ship", 0.9, some "Train", 0.1⟩, 172, (144, 28), (9000, 1000)⟩ ∧
    calculate_co2 "USA" "New York" "China" "Shanghai" "Ship" 10000 1 = 160 ∧
    ¬ ((172 : ℚ) ≤ 160) := by
  refine ⟨?_, ?_, by norm_num⟩
  · rw [optimize_route_some "USA" "New York" "China" "Shanghai" 10000 1 _ _
      combinations_USA_China_10000]
    norm_num [selectFirstMin, candTotal, segment_co2, segment_distances, ef_ship,
      ef_train, ef_truck, ef_plane, round2, round_eq, Option.some.injEq,
      RouteChoice.mk.injEq, Candidate.mk.injEq, Prod.mk.injEq]
  · norm_num [calculate_co2, ef_ship, round2, round_eq]

/-- Claim C2 (amended): the optimizer's returned total never exceeds the
rounded total of any candidate in the evaluated candidate list; it is
therefore bounded by a single-mode baseline exactly when that single-mode
strategy is itself one of the candidates (as in the domestic short band),
but not in general for a mode that only appears as a split segment. -/
theorem optimize_route_le_candidates (country1 city1 country2 city2 : String)
    (d w : ℚ) (c : Candidate) (hc : c ∈ combinations (country1 != country2) d) :
    ∃ r, optimize_route country1 city1 country2 city2 d w = some r ∧
      r.min_co2 ≤ round2 (candTotal d w c) := by
  obtain ⟨x, y, z, hxyz⟩ := combinations_cases (country1 != country2) d
  refine ⟨_, optimize_route_some country1 city1 country2 city2 d w x [y, z] hxyz, ?_⟩
  have hmin := selectFirstMin_le d w [y, z] x c (by rw [hxyz] at hc; exact hc)
  exact round2_mono hmin

/-- Witness for the amended C2 at a domestic short-band input with the
single-mode Truck candidate. -/
theorem optimize_route_le_candidates_witness :
    (⟨"Truck", 1.0, none, 0.0⟩ : Candidate) ∈ combinations ("France" != "France") 500 ∧
    ∃ r, optimize_route "France" "Paris" "France" "Paris" 500 1 = some r ∧
      r.min_co2 ≤ round2 (candTotal 500 1 ⟨"Truck", 1.0, none, 0.0⟩) := by
  have hmem : (⟨"Truck", 1.0, none, 0.0⟩ : Candidate) ∈
      combinations ("France" != "France") 500 := by
    rw [combinations_France_500]
    exact List.mem_cons_of_mem _ (List.mem_cons_self _ _)
  exact ⟨hmem,
    optimize_route_le_candidates "France" "Paris" "France" "Paris" 500 1 _ hmem⟩

/-- Claim C3 (counterexample): called with weight `0` (≤ 0) and distance
`500`, `optimize_route` does not reject the input: it returns an ordinary
strategy whose reported total CO₂ is the meaningless value `0.0`. -/
theorem optimize_route_zero_weight_cex :
    optimize_route "France" "Paris" "France" "Paris" 500 0 =
      some ⟨⟨"Train", 0.9, some "Truck", 0.1⟩, 0, (0, 0), (450, 50)⟩ := by
  rw [optimize_route_some "France" "Paris" "France" "Paris" 500 0 _ _
    combinations_France_500]
  norm_num [selectFirstMin, candTotal, segment_co2, segment_distances, ef_ship,
    ef_train, ef_truck, ef_plane, round2, round_eq, Option.some.injEq,
    RouteChoice.mk.injEq, Candidate.mk.injEq, Prod.mk.injEq]

/-- Claim C3 (amended): `optimize_route` performs no input validation;
for any non-positive weight and non-negative distance it still returns a
normal result, whose reported total CO₂ is non-positive (zero or
negative) instead of an `InvalidInput` rejection. -/
theorem optimize_route_no_validation (country1 city1 country2 city2 : String)
    (d w : ℚ) (hw : w ≤ 0) (hd : 0 ≤ d) :
    ∃ r, optimize_route country1 city1 country2 city2 d w = some r ∧
      r.min_co2 ≤ 0 := by
  obtain ⟨x, y, z, hxyz⟩ := combinations_cases (country1 != country2) d
  refine ⟨_, optimize_route_some country1 city1 country2 city2 d w x [y, z] hxyz, ?_⟩
  have hmem : selectFirstMin d w x [y, z] ∈ combinations (country1 != country2) d := by
    rw [hxyz]
    exact selectFirstMin_mem d w [y, z] x
  exact round2_nonpos (candTotal_nonpos (country1 != country2) d w hd hw _ hmem)

/-- Witness for the amended C3 at weight `0`, distance `500`. -/
theorem optimize_route_no_validation_witness :
    (0 : ℚ) ≤ 0 ∧ (0 : ℚ) ≤ 500 ∧
    ∃ r, optimize_route "France" "Paris" "France" "Paris" 500 0 = some r ∧
      r.min_co2 ≤ 0 :=
  ⟨le_refl 0, by norm_num,
   optimize_route_no_validation "France" "Paris" "France" "Paris" 500 0
     (le_refl 0) (by norm_num)⟩

/-- Claim C4: `calculate_co2` returns `distance × weight × factor(mode)`
rounded to 2 decimals, with factor table Truck 0.096, Train 0.028,
Ship 0.016, Plane 0.602, and any mode outside the table falls back to the
Truck factor 0.096 instead of failing. -/
theorem calculate_co2_table_and_fallback :
    (∀ (a b c e : String) (d w : ℚ),
        calculate_co2 a b c e "Truck" d w = round2 (d * w * 0.096)) ∧
    (∀ (a b c e : String) (d w : ℚ),
        calculate_co2 a b c e "Train" d w = round2 (d * w * 0.028)) ∧
    (∀ (a b c e : String) (d w : ℚ),
        calculate_co2 a b c e "Ship" d w = round2 (d * w * 0.016)) ∧
    (∀ (a b c e : String) (d w : ℚ),
        calculate_co2 a b c e "Plane" d w = round2 (d * w * 0.602)) ∧
    (∀ m : String, m ∉ ["Truck", "Train", "Ship", "Plane"] →
      ∀ (a b c e : String) (d w : ℚ),
        calculate_co2 a b c e m d w = round2 (d * w * 0.096)) := by
  refine ⟨?_, ?_, ?_, ?_, ?_⟩
  · intro a b c e d w
    simp [calculate_co2, ef_truck]
  · intro a b c e d w
    simp [calculate_co2, ef_train]
  · intro a b c e d w
    simp [calculate_co2, ef_ship]
  · intro a b c e d w
    simp [calculate_co2, ef_plane]
  · intro m hm a b c e d w
    simp only [List.mem_cons, List.not_mem_nil, or_false, not_or] at hm
    obtain ⟨h1, h2, h3, h4⟩ := hm
    have hf : emission_factor_of m = 0.096 := by
      unfold emission_factor_of EMISSION_FACTORS
      simp [List.lookup, beq_eq_false_iff_ne.mpr h1, beq_eq_false_iff_ne.mpr h2,
        beq_eq_false_iff_ne.mpr h3, beq_eq_false_iff_ne.mpr h4]
    simp [calculate_co2, hf]

/-- Witness for C4's unknown-mode fallback at the mode "Hyperloop". -/
theorem calculate_co2_table_and_fallback_witness :
    "Hyperloop" ∉ ["Truck", "Train", "Ship", "Plane"] ∧
    calculate_co2 "a" "b" "c" "e" "Hyperloop" 100 2 = round2 (100 * 2 * 0.096) :=
  ⟨by decide,
   calculate_co2_table_and_fallback.2.2.2.2 "Hyperloop" (by decide) "a" "b" "c" "e" 100 2⟩

/-- Claim C5: a location absent from the table resolves to the sentinel
`(0, 0)`; a location present in the table never does; if either endpoint
resolves to the sentinel, `calculate_distance` returns exactly `500.0` km;
otherwise it returns the haversine great-circle distance (R = 6371 km)
rounded to 2 decimal places. -/
theorem calculate_distance_sentinel_spec :
    (∀ country city : String, resolved country city = false →
        get_coordinates country city = (0, 0)) ∧
    (∀ country city : String, resolved country city = true →
        get_coordinates country city ≠ (0, 0)) ∧
    (∀ c1 t1 c2 t2 : String,
        get_coordinates c1 t1 = (0, 0) ∨ get_coordinates c2 t2 = (0, 0) →
        calculate_distance c1 t1 c2 t2 = 500) ∧
    (∀ c1 t1 c2 t2 : String,
        get_coordinates c1 t1 ≠ (0, 0) → get_coordinates c2 t2 ≠ (0, 0) →
        calculate_distance c1 t1 c2 t2 =
          round2R (haversine_distance (get_coordinates c1 t1).1 (get_coordinates c1 t1).2
            (get_coordinates c2 t2).1 (get_coordinates c2 t2).2)) := by
  refine ⟨unresolved_coordinates, resolved_coordinates, ?_, ?_⟩
  · intro c1 t1 c2 t2 h
    simp only [calculate_distance]
    rw [if_pos (h.imp (fun hh => Prod.ext_iff.mp hh) (fun hh => Prod.ext_iff.mp hh))]
  · intro c1 t1 c2 t2 h1 h2
    simp only [calculate_distance]
    rw [if_neg]
    rintro (⟨ha, hb⟩ | ⟨ha, hb⟩)
    · exact h1 (Prod.ext_iff.mpr ⟨ha, hb⟩)
    · exact h2 (Prod.ext_iff.mpr ⟨ha, hb⟩)

/-- Witness for C5's sentinel branch at an unknown origin location. -/
theorem calculate_distance_sentinel_spec_witness :
    calculate_distance "Mars" "Atlantis" "France" "Paris" = 500 :=
  calculate_distance_sentinel_spec.2.2.1 "Mars" "Atlantis" "France" "Paris"
    (Or.inl (by simp [get_coordinates, LOCATIONS, List.lookup]))

/-- Claim C6: for every input, the winning strategy's segment distances
sum to the input distance within `1e-6` km (in fact exactly: every
candidate's share ratios sum to 1), and the per-segment CO₂ values sum to
the reported total within the rounding tolerance `0.005`. -/
theorem optimize_route_segment_conservation (country1 city1 country2 city2 : String)
    (d w : ℚ) :
    ∃ r, optimize_route country1 city1 country2 city2 d w = some r ∧
      |r.best_distances.1 + r.best_distances.2 - d| ≤ 1 / 1000000 ∧
      |r.best_breakdown.1 + r.best_breakdown.2 - r.min_co2| ≤ 1 / 200 := by
  obtain ⟨x, y, z, hxyz⟩ := combinations_cases (country1 != country2) d
  have hopt := optimize_route_some country1 city1 country2 city2 d w x [y, z] hxyz
  set c := selectFirstMin d w x [y, z] with hc
  have hmem : c ∈ combinations (country1 != country2) d := by
    rw [hxyz]
    exact selectFirstMin_mem d w [y, z] x
  have hsum := combinations_ratio_sum (country1 != country2) d c hmem
  refine ⟨_, hopt, ?_, ?_⟩
  · show |(segment_distances d c).1 + (segment_distances d c).2 - d| ≤ 1 / 1000000
    simp only [segment_distances]
    cases hm2 : c.mode2 with
    | none =>
        simp only [hm2] at hsum ⊢
        have h1 : c.ratio1 = 1 := by linarith
        have h0 : d * c.ratio1 + 0 - d = 0 := by rw [h1]; ring
        rw [h0]
        norm_num
    | some m2 =>
        simp only [hm2] at hsum ⊢
        have h0 : d * c.ratio1 + d * c.ratio2 - d = 0 := by
          have h1 : c.ratio2 = 1 - c.ratio1 := by linarith
          rw [h1]; ring
        rw [h0]
        norm_num
  · show |(segment_co2 d w c).1 + (segment_co2 d w c).2 - round2 (candTotal d w c)| ≤ 1 / 200
    have hEq : (segment_co2 d w c).1 + (segment_co2 d w c).2 = candTotal d w c := rfl
    rw [hEq]
    exact abs_sub_round2 (candTotal d w c)

/-- Claim C7: monetizing a CO₂ saving with a currency absent from the
exchange-rate table produces no numeric amount: the lookup fails (the
source raises `KeyError`) instead of falling back to a default currency. -/
theorem monetize_savings_unsupported (s : ℚ) (currency : String)
    (h : currency ∉ ["EUR", "USD", "AUD", "SAR"]) :
    monetize_savings s currency = none := by
  unfold monetize_savings
  simp only [List.mem_cons, List.not_mem_nil, or_false, not_or] at h
  obtain ⟨h1, h2, h3, h4⟩ := h
  have hl : List.lookup currency EXCHANGE_RATES = none := by
    unfold EXCHANGE_RATES
    simp [List.lookup, beq_eq_false_iff_ne.mpr h1, beq_eq_false_iff_ne.mpr h2,
      beq_eq_false_iff_ne.mpr h3, beq_eq_false_iff_ne.mpr h4]
  rw [hl]
  rfl

/-- Witness for C7 at the unsupported currency "GBP". -/
theorem monetize_savings_unsupported_witness :
    "GBP" ∉ ["EUR", "USD", "AUD", "SAR"] ∧ monetize_savings 100 "GBP" = none :=
  ⟨by decide, monetize_savings_unsupported 100 "GBP" (by decide)⟩

/-- Claim C8 (counterexample): the rounded result is not strictly
increasing in distance: with the Truck factor and weight 1, distances 1 km
and 1.01 km both yield 0.1 kg after rounding to 2 decimals. -/
theorem calculate_co2_not_strict_cex :
    (1 : ℚ) < 1.01 ∧
    calculate_co2 "a" "b" "c" "e" "Truck" 1 1 = 0.1 ∧
    calculate_co2 "a" "b" "c" "e" "Truck" 1.01 1 = 0.1 := by
  refine ⟨by norm_num, ?_, ?_⟩ <;>
    norm_num [calculate_co2, ef_truck, round2, round_eq]

/-- Claim C8 (amended): after rounding, `calculate_co2` is weakly
monotone (non-decreasing) in distance for fixed mode and non-negative
weight, and in weight for fixed mode and non-negative distance; the
unrounded product `distance × weight × factor` is strictly increasing. -/
theorem calculate_co2_monotone :
    (∀ (a b c e m : String) (w d1 d2 : ℚ), 0 ≤ w → d1 ≤ d2 →
        calculate_co2 a b c e m d1 w ≤ calculate_co2 a b c e m d2 w) ∧
    (∀ (a b c e m : String) (d w1 w2 : ℚ), 0 ≤ d → w1 ≤ w2 →
        calculate_co2 a b c e m d w1 ≤ calculate_co2 a b c e m d w2) ∧
    (∀ (m : String) (w d1 d2 : ℚ), 0 < w → d1 < d2 →
        d1 * w * emission_factor_of m < d2 * w * emission_factor_of m) ∧
    (∀ (m : String) (d w1 w2 : ℚ), 0 < d → w1 < w2 →
        d * w1 * emission_factor_of m < d * w2 * emission_factor_of m) := by
  refine ⟨?_, ?_, ?_, ?_⟩
  · intro a b c e m w d1 d2 hw hd
    apply round2_mono
    have hf := emission_factor_of_pos m
    have h1 : 0 ≤ (d2 - d1) * w := mul_nonneg (by linarith) hw
    nlinarith [mul_nonneg h1 (le_of_lt hf)]
  · intro a b c e m d w1 w2 hd hw
    apply round2_mono
    have hf := emission_factor_of_pos m
    have h1 : 0 ≤ (w2 - w1) * d := mul_nonneg (by linarith) hd
    nlinarith [mul_nonneg h1 (le_of_lt hf)]
  · intro m w d1 d2 hw hd
    have hf := emission_factor_of_pos m
    have h1 : 0 < (d2 - d1) * w := mul_pos (by linarith) hw
    nlinarith [mul_pos h1 hf]
  · intro m d w1 w2 hd hw
    have hf := emission_factor_of_pos m
    have h1 : 0 < (w2 - w1) * d := mul_pos (by linarith) hd
    nlinarith [mul_pos h1 hf]

/-- Witness for the amended C8 (monotone in distance at Truck, weight 1,
distances 100 and 200). -/
theorem calculate_co2_monotone_witness :
    (0 : ℚ) ≤ 1 ∧ (100 : ℚ) ≤ 200 ∧
    calculate_co2 "a" "b" "c" "e" "Truck" 100 1 ≤
      calculate_co2 "a" "b" "c" "e" "Truck" 200 1 :=
  ⟨by norm_num, by norm_num,
   calculate_co2_monotone.1 "a" "b" "c" "e" "Truck" 1 100 200 (by norm_num)
     (by norm_num)⟩

/-- Claim C9: `calculate_distance` is symmetric in its two endpoints,
including when an endpoint resolves to the unresolved sentinel. -/
theorem calculate_distance_symm (c1 t1 c2 t2 : String) :
    calculate_distance c1 t1 c2 t2 = calculate_distance c2 t2 c1 t1 := by
  simp only [calculate_distance]
  by_cases h : ((get_coordinates c1 t1).1 = 0 ∧ (get_coordinates c1 t1).2 = 0) ∨
      ((get_coordinates c2 t2).1 = 0 ∧ (get_coordinates c2 t2).2 = 0)
  · rw [if_pos h, if_pos h.symm]
  · rw [if_neg h, if_neg (fun hc => h hc.symm), haversine_distance_symm]

/-- Claim C10: the result of `calculate_co2` depends only on the transport
mode, the distance and the weight: the four origin/destination country and
city arguments never influence the result. -/
theorem calculate_co2_ignores_locations (a b c e a2 b2 c2 e2 m : String)
    (d w : ℚ) :
    calculate_co2 a b c e m d w = calculate_co2 a2 b2 c2 e2 m d w := rfl

end GreenLogistics
